import Mathlib

/-!
Verification development for the Vapoursynth-ATWT plugin (src/atwt/atwt.cpp).

Modelling conventions:
* Planes are total functions `ℤ → ℤ → ℤ` (integer formats, pixel values) or
  `ℤ → ℤ → ℚ` (32-bit float format); the C `float` arithmetic of the
  convolution core is modelled by exact rational arithmetic.
* Coordinates are `ℤ`, as in the C code (`int`).
* `static_cast<T>` of the clamped, rounded, non-negative value truncates;
  it is modelled by `Int.floor`.
-/

namespace ATWT

/-- Embeds `constexpr std::array<int, 5> KERNEL = {1, 4, 6, 4, 1}`. -/
def KERNEL : List ℤ := [1, 4, 6, 4, 1]

/-- Embeds `KERNEL.at(i)` as used by the convolution loops (the value is
consumed in `float` arithmetic, hence the cast to `ℚ`). -/
def kernelAt (i : ℤ) : ℚ := ((KERNEL.getD i.toNat 0 : ℤ) : ℚ)

/-- Embeds `mirror_boundary` (101 reflection) from atwt.cpp lines 37-45. -/
def mirror_boundary (pos max_pos : ℤ) : ℤ :=
  if pos < 0 then -pos
  else if max_pos ≤ pos then 2 * max_pos - 2 - pos
  else pos

/-- Embeds `get_neutral<T>`: `0.0f` for the float instantiation,
`1 << (bitsPerSample - 1)` for the integer instantiations. -/
def get_neutral (isFloat : Bool) (bits : ℕ) : ℚ :=
  if isFloat then 0 else (2 : ℚ) ^ (bits - 1)

/-- Embeds `get_max<T>`: `1.0f` for the float instantiation,
`(1LL << bitsPerSample) - 1` for the integer instantiations. -/
def get_max (isFloat : Bool) (bits : ℕ) : ℚ :=
  if isFloat then 1 else (2 : ℚ) ^ bits - 1

/-- Embeds `std::clamp(v, lo, hi)`. -/
def clampQ (v lo hi : ℚ) : ℚ := if v < lo then lo else if hi < v then hi else v

/-- Embeds `std::round` (round half away from zero), landing in `ℤ`. -/
def roundHalfAway (q : ℚ) : ℤ := if q < 0 then -⌊-q + 1 / 2⌋ else ⌊q + 1 / 2⌋

/-- Embeds one output sample of `conv_h` (atwt.cpp lines 47-64): the
unnormalized horizontal 5-tap sum, mirrored on the x axis, accumulated in
the loop order `k = -2 .. 2`.  The source samples are already cast to
`float` (`ℚ`) by the caller, matching `static_cast<float>(src_row[...])`. -/
def conv_h (src : ℤ → ℤ → ℚ) (width step x y : ℤ) : ℚ :=
  0 + src (mirror_boundary (x + (-2) * step) width) y * kernelAt (-2 + 2)
    + src (mirror_boundary (x + (-1) * step) width) y * kernelAt (-1 + 2)
    + src (mirror_boundary (x + 0 * step) width) y * kernelAt (0 + 2)
    + src (mirror_boundary (x + 1 * step) width) y * kernelAt (1 + 2)
    + src (mirror_boundary (x + 2 * step) width) y * kernelAt (2 + 2)

/-- Embeds the vertical 5-tap accumulation loop of `conv_v_and_extract`
(atwt.cpp lines 80-84): `temp_src[(y_tap * width) + x]` is the intermediate
buffer entry at column `x`, row `y_tap`. -/
def conv_v_sum (temp : ℤ → ℤ → ℚ) (height step x y : ℤ) : ℚ :=
  0 + temp x (mirror_boundary (y + (-2) * step) height) * kernelAt (-2 + 2)
    + temp x (mirror_boundary (y + (-1) * step) height) * kernelAt (-1 + 2)
    + temp x (mirror_boundary (y + 0 * step) height) * kernelAt (0 + 2)
    + temp x (mirror_boundary (y + 1 * step) height) * kernelAt (1 + 2)
    + temp x (mirror_boundary (y + 2 * step) height) * kernelAt (2 + 2)

/-- Embeds `conv_v_and_extract<T>` for the integer instantiations
(atwt.cpp lines 66-100): blurred = sum / 256, detail = src - blurred +
neutral, then `std::clamp(std::round(detail), 0.0f, max_val)` cast to `T`. -/
def conv_v_and_extract_int (bits : ℕ) (temp : ℤ → ℤ → ℚ) (src : ℤ → ℤ → ℤ)
    (height step x y : ℤ) : ℤ :=
  let neutral := get_neutral false bits
  let max_val := get_max false bits
  let sum := conv_v_sum temp height step x y
  let blurred := sum / 256
  let detail := (src x y : ℚ) - blurred + neutral
  ⌊clampQ ((roundHalfAway detail : ℤ) : ℚ) 0 max_val⌋

/-- Embeds `conv_v_and_extract<float>` (atwt.cpp lines 66-100, `else`
branch of the `if constexpr`): the detail value is stored directly,
without rounding or clamping. -/
def conv_v_and_extract_float (temp src : ℤ → ℤ → ℚ) (height step x y : ℤ) : ℚ :=
  let neutral := get_neutral true 32
  let sum := conv_v_sum temp height step x y
  let blurred := sum / 256
  src x y - blurred + neutral

/-- Embeds `int step = 1 << (radius - 1)` (atwt.cpp line 126). -/
def step_of (radius : ℕ) : ℤ := 2 ^ (radius - 1)

/-- One pixel of the two-pass extract pipeline at an explicit dilation
step: the horizontal pass fills the intermediate buffer, the vertical
pass consumes it (integer instantiation). -/
def extract_pixel_int (bits : ℕ) (src : ℤ → ℤ → ℤ) (width height step x y : ℤ) : ℤ :=
  conv_v_and_extract_int bits (conv_h (fun a b => ((src a b : ℤ) : ℚ)) width step)
    src height step x y

/-- One pixel of the two-pass extract pipeline at an explicit dilation
step (float instantiation). -/
def extract_pixel_float (src : ℤ → ℤ → ℚ) (width height step x y : ℤ) : ℚ :=
  conv_v_and_extract_float (conv_h src width step) src height step x y

/-- Embeds `process_extract_plane<T>` for integer `T` (atwt.cpp lines
114-133), per pixel. -/
def process_extract_plane_int (bits : ℕ) (src : ℤ → ℤ → ℤ) (width height : ℤ)
    (radius : ℕ) (x y : ℤ) : ℤ :=
  extract_pixel_int bits src width height (step_of radius) x y

/-- Embeds `process_extract_plane<float>` (atwt.cpp lines 114-133), per
pixel. -/
def process_extract_plane_float (src : ℤ → ℤ → ℚ) (width height : ℤ)
    (radius : ℕ) (x y : ℤ) : ℚ :=
  extract_pixel_float src width height (step_of radius) x y

/-- Embeds `ProcessReplacePlane<T>` for the integer instantiations
(atwt.cpp lines 235-269), per pixel: `val = b + d - neutral`, then
`std::clamp(std::round(val), 0.0f, max_val)` cast to `T`. -/
def ProcessReplacePlane_int (bits : ℕ) (base detail : ℤ → ℤ → ℤ) (x y : ℤ) : ℤ :=
  let neutral := get_neutral false bits
  let max_val := get_max false bits
  let val := (base x y : ℚ) + (detail x y : ℚ) - neutral
  ⌊clampQ ((roundHalfAway val : ℤ) : ℚ) 0 max_val⌋

/-- Embeds `ProcessReplacePlane<float>` (atwt.cpp lines 235-269), per
pixel: the raw sum is stored directly (`static_cast<float>`, no clamp). -/
def ProcessReplacePlane_float (base detail : ℤ → ℤ → ℚ) (x y : ℤ) : ℚ :=
  base x y + detail x y - get_neutral true 32

/-- Modelled from the spec: `MakeLowBand(S) = S - Extract(S, r)`, the
caller-side per-pixel difference plane (float format).  This operation is
not part of src/; the spec defines it by this formula. -/
def makeLowBand_float (S : ℤ → ℤ → ℚ) (width height : ℤ) (radius : ℕ) :
    ℤ → ℤ → ℚ :=
  fun x y => S x y - process_extract_plane_float S width height radius x y

/-- Modelled from the spec: `MakeLowBand(S) = S - Extract(S, r)`, the
caller-side per-pixel difference plane, read literally for an integer
format plane.  This operation is not part of src/; the spec defines it by
this formula. -/
def makeLowBand_int (bits : ℕ) (S : ℤ → ℤ → ℤ) (width height : ℤ)
    (radius : ℕ) : ℤ → ℤ → ℤ :=
  fun x y => S x y - process_extract_plane_int bits S width height radius x y

/-- Modelled from the spec: the caller-side low band for integer formats
with the neutral offset restored (`S - Extract(S, r) + neutral`, the
difference plane a host `MakeDiff` produces).  This is the amended form of
`MakeLowBand` under which the integer inverse law holds. -/
def makeLowBandNeutral_int (bits : ℕ) (S : ℤ → ℤ → ℤ) (width height : ℤ)
    (radius : ℕ) : ℤ → ℤ → ℤ :=
  fun x y =>
    S x y - process_extract_plane_int bits S width height radius x y
      + 2 ^ (bits - 1)

/-- Spec formula (§4.2 and §4.3): the blurred estimate as one nested
double 5-tap sum over the source, mirrored independently per axis, divided
by 256 — the reference against which the two-pass code is checked. -/
def blurredSpec (src : ℤ → ℤ → ℚ) (width height step x y : ℤ) : ℚ :=
  (∑ j ∈ Finset.range 5, kernelAt (j : ℤ) *
    ∑ i ∈ Finset.range 5, kernelAt (i : ℤ) *
      src (mirror_boundary (x + ((i : ℤ) - 2) * step) width)
          (mirror_boundary (y + ((j : ℤ) - 2) * step) height)) / 256

/-- Spec formula (§4.2): the horizontal pass value
`Σ_{k=-2..2} source[mirror(x + k*step), y] * kernel[k+2]`, unnormalized. -/
def hSpecSum (src : ℤ → ℤ → ℚ) (width step x y : ℤ) : ℚ :=
  ∑ i ∈ Finset.range 5,
    src (mirror_boundary (x + ((i : ℤ) - 2) * step) width) y * kernelAt (i : ℤ)

/-- Spec formula (§4.3), integer representations: detail =
source - blurred + neutral, rounded half away from zero and clamped to
`[0, max]` before truncation. -/
def extractSpec_int (bits : ℕ) (S : ℤ → ℤ → ℤ) (width height step x y : ℤ) : ℤ :=
  let detail := (S x y : ℚ)
    - blurredSpec (fun a b => ((S a b : ℤ) : ℚ)) width height step x y
    + (2 : ℚ) ^ (bits - 1)
  ⌊clampQ ((roundHalfAway detail : ℤ) : ℚ) 0 ((2 : ℚ) ^ bits - 1)⌋

/-- Spec formula (§4.3), float representation: the unclamped, unrounded
detail value with neutral 0. -/
def extractSpec_float (S : ℤ → ℤ → ℚ) (width height step x y : ℤ) : ℚ :=
  S x y - blurredSpec S width height step x y + 0

/-- Spec formula (§4.4), integer representations:
`value = base + detail - neutral` with neutral `2^(bits-1)`, rounded half
away from zero and clamped to `[0, max]`. -/
def replaceSpec_int (bits : ℕ) (b d : ℤ) : ℤ :=
  ⌊clampQ ((roundHalfAway ((b : ℚ) + (d : ℚ) - (2 : ℚ) ^ (bits - 1)) : ℤ) : ℚ)
      0 ((2 : ℚ) ^ bits - 1)⌋

/-- Spec formula (§4.4), float representation: the raw sum with neutral 0,
stored without clamping. -/
def replaceSpec_float (b d : ℚ) : ℚ := b + d - 0

/-- Bounds-checked plane read: `none` on an index outside
`[0, width) × [0, height)`.  The C code performs no such check; this total
embedding makes an out-of-range access observable. -/
def readPlaneOpt (p : ℤ → ℤ → ℚ) (width height x y : ℤ) : Option ℚ :=
  if 0 ≤ x ∧ x < width ∧ 0 ≤ y ∧ y < height then some (p x y) else none

/-- Bounds-checked variant of `conv_h`: every sample read goes through
`readPlaneOpt`. -/
def conv_h_opt (src : ℤ → ℤ → ℚ) (width height step x y : ℤ) : Option ℚ :=
  (readPlaneOpt src width height (mirror_boundary (x + (-2) * step) width) y).bind fun t0 =>
  (readPlaneOpt src width height (mirror_boundary (x + (-1) * step) width) y).bind fun t1 =>
  (readPlaneOpt src width height (mirror_boundary (x + 0 * step) width) y).bind fun t2 =>
  (readPlaneOpt src width height (mirror_boundary (x + 1 * step) width) y).bind fun t3 =>
  (readPlaneOpt src width height (mirror_boundary (x + 2 * step) width) y).bind fun t4 =>
  some (0 + t0 * kernelAt (-2 + 2) + t1 * kernelAt (-1 + 2) + t2 * kernelAt (0 + 2)
      + t3 * kernelAt (1 + 2) + t4 * kernelAt (2 + 2))

/-- Bounds-checked intermediate buffer: an entry exists only at the
`width × height` positions the horizontal pass actually wrote. -/
def temp_opt (src : ℤ → ℤ → ℚ) (width height step a b : ℤ) : Option ℚ :=
  if 0 ≤ a ∧ a < width ∧ 0 ≤ b ∧ b < height
  then conv_h_opt src width height step a b else none

/-- Bounds-checked variant of the vertical 5-tap accumulation. -/
def conv_v_sum_opt (tempo : ℤ → ℤ → Option ℚ) (height step x y : ℤ) : Option ℚ :=
  (tempo x (mirror_boundary (y + (-2) * step) height)).bind fun t0 =>
  (tempo x (mirror_boundary (y + (-1) * step) height)).bind fun t1 =>
  (tempo x (mirror_boundary (y + 0 * step) height)).bind fun t2 =>
  (tempo x (mirror_boundary (y + 1 * step) height)).bind fun t3 =>
  (tempo x (mirror_boundary (y + 2 * step) height)).bind fun t4 =>
  some (0 + t0 * kernelAt (-2 + 2) + t1 * kernelAt (-1 + 2) + t2 * kernelAt (0 + 2)
      + t3 * kernelAt (1 + 2) + t4 * kernelAt (2 + 2))

/-- Bounds-checked extract pipeline (float instantiation): `none` exactly
when some plane or buffer access of the two convolution passes is out of
range. -/
def extract_opt_float (src : ℤ → ℤ → ℚ) (width height step x y : ℤ) : Option ℚ :=
  (conv_v_sum_opt (temp_opt src width height step) height step x y).bind fun sum =>
  some (src x y - sum / 256 + get_neutral true 32)

/-- VapourSynth `VSSampleType.stInteger`. -/
def stInteger : ℕ := 0

/-- VapourSynth `VSSampleType.stFloat`. -/
def stFloat : ℕ := 1

/-- VapourSynth `VSVideoFormat`: the format record.  Note it carries no
frame dimensions (those live in `VSVideoInfo`). -/
structure VSVideoFormat where
  colorFamily : ℕ
  sampleType : ℕ
  bitsPerSample : ℕ
  bytesPerSample : ℕ
  subSamplingW : ℕ
  subSamplingH : ℕ
  numPlanes : ℕ
deriving DecidableEq

/-- VapourSynth `VSVideoInfo`: format plus frame dimensions. -/
structure VSVideoInfo where
  format : VSVideoFormat
  width : ℤ
  height : ℤ
deriving DecidableEq

/-- Embeds the VapourSynth helper `vsh::isSameVideoFormat` (dependency
header, not part of src/): field-wise comparison of two `VSVideoFormat`
records.  The argument type carries no dimensions — atwt.cpp line 341
passes `&d->vi.format`, so no dimension can reach this check. -/
def isSameVideoFormat (a b : VSVideoFormat) : Bool :=
  a.colorFamily == b.colorFamily && a.sampleType == b.sampleType &&
  a.bitsPerSample == b.bitsPerSample && a.bytesPerSample == b.bytesPerSample &&
  a.subSamplingW == b.subSamplingW && a.subSamplingH == b.subSamplingH

/-- Embeds the VapourSynth helper `vsh::isConstantVideoFormat` (dependency
header, not part of src/): positive dimensions and a defined color family
(`cfUndefined = 0`). -/
def isConstantVideoFormat (vi : VSVideoInfo) : Bool :=
  decide (0 < vi.height) && decide (0 < vi.width) && (vi.format.colorFamily != 0)

/-- Embeds the format-acceptance condition shared by both constructors
(atwt.cpp lines 218-221 and 350-353), literally:
`(bits < 8 || bits > 16 || sampleType != stInteger) &&
 (bits != 32 || sampleType != stFloat)`. -/
def formatRejected (f : VSVideoFormat) : Bool :=
  (decide (f.bitsPerSample < 8) || decide (16 < f.bitsPerSample)
      || (f.sampleType != stInteger))
  && ((f.bitsPerSample != 32) || (f.sampleType != stFloat))

/-- Embeds the validation sequence of `ExtractCreate` (atwt.cpp lines
190-233): each failed check sets an error and returns before the filter —
and hence any pixel processing — is created. -/
def ExtractCreate (radius : ℤ) (vi : VSVideoInfo) : Except String Unit :=
  if radius < 1 then
    Except.error "ExtractFrequency: radius must be >= 1"
  else if !isConstantVideoFormat vi then
    Except.error "ExtractFrequency: only clips with constant format are accepted"
  else if formatRejected vi.format then
    Except.error "ExtractFrequency: only 8-16 bit integer or 32 bit float input are accepted"
  else Except.ok ()

/-- Embeds the validation sequence of `ReplaceCreate` (atwt.cpp lines
331-368): the first check compares only the two `VSVideoFormat` records. -/
def ReplaceCreate (viBase viDetail : VSVideoInfo) : Except String Unit :=
  if !isSameVideoFormat viBase.format viDetail.format then
    Except.error "ReplaceFrequency: base and detail must have the same format and dimensions"
  else if formatRejected viBase.format || !isConstantVideoFormat viBase then
    Except.error "ReplaceFrequency: only constant 8-16 bit integer or 32 bit float input are accepted"
  else Except.ok ()

lemma kernelAt_zero : kernelAt 0 = 1 := rfl

lemma kernelAt_one : kernelAt 1 = 4 := rfl

lemma kernelAt_two : kernelAt 2 = 6 := rfl

lemma kernelAt_three : kernelAt 3 = 4 := rfl

lemma kernelAt_four : kernelAt 4 = 1 := rfl

lemma kernelAt_tap_n2 : kernelAt (-2 + 2) = 1 := rfl

lemma kernelAt_tap_n1 : kernelAt (-1 + 2) = 4 := rfl

lemma kernelAt_tap_0 : kernelAt (0 + 2) = 6 := rfl

lemma kernelAt_tap_1 : kernelAt (1 + 2) = 4 := rfl

lemma kernelAt_tap_2 : kernelAt (2 + 2) = 1 := rfl

lemma get_neutral_int_cast (bits : ℕ) :
    get_neutral false bits = ((2 ^ (bits - 1) : ℤ) : ℚ) := by
  simp [get_neutral]

lemma get_max_int_cast (bits : ℕ) :
    get_max false bits = ((2 ^ bits - 1 : ℤ) : ℚ) := by
  simp [get_max]

lemma roundHalfAway_intCast (z : ℤ) : roundHalfAway (z : ℚ) = z := by
  unfold roundHalfAway
  have h2 : ⌊(1 / 2 : ℚ)⌋ = 0 := by norm_num
  split_ifs with h
  · have e : -(z : ℚ) + 1 / 2 = ((-z : ℤ) : ℚ) + 1 / 2 := by push_cast; ring
    rw [e, Int.floor_int_add, h2]
    omega
  · rw [Int.floor_int_add, h2]
    omega

lemma le_roundHalfAway {z : ℤ} {q : ℚ} (h : (z : ℚ) ≤ q) :
    z ≤ roundHalfAway q := by
  unfold roundHalfAway
  split_ifs with hq
  · have h1 : (-q + 1 / 2 : ℚ) < ((-z + 1 : ℤ) : ℚ) := by push_cast; linarith
    have := Int.floor_lt.mpr h1
    omega
  · exact Int.le_floor.mpr (by linarith)

lemma roundHalfAway_le {z : ℤ} {q : ℚ} (h : q ≤ (z : ℚ)) :
    roundHalfAway q ≤ z := by
  unfold roundHalfAway
  split_ifs with hq
  · have h1 : ((-z : ℤ) : ℚ) ≤ -q + 1 / 2 := by push_cast; linarith
    have := Int.le_floor.mpr h1
    omega
  · have h1 : (q + 1 / 2 : ℚ) < ((z + 1 : ℤ) : ℚ) := by push_cast; linarith
    have := Int.floor_lt.mpr h1
    omega

lemma floor_clampQ (r m : ℤ) (hm : 0 ≤ m) :
    ⌊clampQ ((r : ℤ) : ℚ) 0 ((m : ℤ) : ℚ)⌋ = max 0 (min r m) := by
  unfold clampQ
  split_ifs with h1 h2
  · have : r < 0 := by exact_mod_cast h1
    simp only [Int.floor_zero]
    omega
  · have : m < r := by exact_mod_cast h2
    rw [Int.floor_intCast]
    omega
  · have e1 : ¬ r < 0 := by
      intro hc
      exact h1 (by exact_mod_cast hc)
    have e2 : ¬ m < r := by
      intro hc
      exact h2 (by exact_mod_cast hc)
    rw [Int.floor_intCast]
    omega

lemma mirror_boundary_mem (pos size : ℤ) (_hsz : 1 ≤ size) (h1 : -size < pos)
    (h2 : pos ≤ 2 * size - 2) :
    0 ≤ mirror_boundary pos size ∧ mirror_boundary pos size < size := by
  unfold mirror_boundary
  split_ifs <;> omega

lemma conv_h_bounds {src : ℤ → ℤ → ℚ} {M : ℚ}
    (hM : ∀ a b, 0 ≤ src a b ∧ src a b ≤ M) (width step x y : ℤ) :
    0 ≤ conv_h src width step x y ∧ conv_h src width step x y ≤ 16 * M := by
  have h0 := hM (mirror_boundary (x + (-2) * step) width) y
  have h1 := hM (mirror_boundary (x + (-1) * step) width) y
  have h2 := hM (mirror_boundary (x + 0 * step) width) y
  have h3 := hM (mirror_boundary (x + 1 * step) width) y
  have h4 := hM (mirror_boundary (x + 2 * step) width) y
  simp only [conv_h, kernelAt_tap_n2, kernelAt_tap_n1, kernelAt_tap_0,
    kernelAt_tap_1, kernelAt_tap_2]
  constructor <;>
    linarith [h0.1, h0.2, h1.1, h1.2, h2.1, h2.2, h3.1, h3.2, h4.1, h4.2]

lemma conv_v_sum_bounds {temp : ℤ → ℤ → ℚ} {C : ℚ}
    (hC : ∀ a b, 0 ≤ temp a b ∧ temp a b ≤ C) (height step x y : ℤ) :
    0 ≤ conv_v_sum temp height step x y ∧ conv_v_sum temp height step x y ≤ 16 * C := by
  have h0 := hC x (mirror_boundary (y + (-2) * step) height)
  have h1 := hC x (mirror_boundary (y + (-1) * step) height)
  have h2 := hC x (mirror_boundary (y + 0 * step) height)
  have h3 := hC x (mirror_boundary (y + 1 * step) height)
  have h4 := hC x (mirror_boundary (y + 2 * step) height)
  simp only [conv_v_sum, kernelAt_tap_n2, kernelAt_tap_n1, kernelAt_tap_0,
    kernelAt_tap_1, kernelAt_tap_2]
  constructor <;>
    linarith [h0.1, h0.2, h1.1, h1.2, h2.1, h2.2, h3.1, h3.2, h4.1, h4.2]

lemma hSpecSum_eq (src : ℤ → ℤ → ℚ) (width step x y : ℤ) :
    hSpecSum src width step x y = conv_h src width step x y := by
  unfold hSpecSum conv_h
  rw [Finset.sum_range_succ, Finset.sum_range_succ, Finset.sum_range_succ,
    Finset.sum_range_succ, Finset.sum_range_one]
  norm_num [kernelAt_zero, kernelAt_one, kernelAt_two, kernelAt_three,
    kernelAt_four]

lemma blurredSpec_eq (src : ℤ → ℤ → ℚ) (width height step x y : ℤ) :
    blurredSpec src width height step x y
      = conv_v_sum (conv_h src width step) height step x y / 256 := by
  unfold blurredSpec conv_v_sum conv_h
  rw [Finset.sum_range_succ, Finset.sum_range_succ, Finset.sum_range_succ,
    Finset.sum_range_succ, Finset.sum_range_one]
  simp only [Finset.sum_range_succ, Finset.sum_range_one]
  norm_num [kernelAt_zero, kernelAt_one, kernelAt_two, kernelAt_three,
    kernelAt_four]
  ring_nf

lemma conv_h_const (c : ℚ) (width step x y : ℤ) :
    conv_h (fun _ _ => c) width step x y = 16 * c := by
  simp only [conv_h, kernelAt_tap_n2, kernelAt_tap_n1, kernelAt_tap_0,
    kernelAt_tap_1, kernelAt_tap_2]
  ring

lemma extract_pixel_int_const (bits : ℕ) (hb : 1 ≤ bits) (c : ℤ)
    (width height step x y : ℤ) :
    conv_v_and_extract_int bits (conv_h (fun _ _ => (c : ℚ)) width step)
      (fun _ _ => c) height step x y = 2 ^ (bits - 1) := by
  have hpow : (2 : ℤ) ^ bits = 2 ^ (bits - 1) * 2 := by
    rw [← pow_succ]
    congr 1
    omega
  have hpos : (0 : ℤ) < 2 ^ (bits - 1) := pow_pos (by norm_num) _
  simp only [conv_v_and_extract_int, conv_v_sum, conv_h_const, kernelAt_tap_n2,
    kernelAt_tap_n1, kernelAt_tap_0, kernelAt_tap_1, kernelAt_tap_2,
    get_neutral_int_cast, get_max_int_cast]
  have hdetail :
      ((c : ℚ))
          - (0 + 16 * (c : ℚ) * 1 + 16 * (c : ℚ) * 4 + 16 * (c : ℚ) * 6
              + 16 * (c : ℚ) * 4 + 16 * (c : ℚ) * 1) / 256
          + ((2 ^ (bits - 1) : ℤ) : ℚ)
        = ((2 ^ (bits - 1) : ℤ) : ℚ) := by
    ring
  rw [hdetail, roundHalfAway_intCast, floor_clampQ _ _ (by omega)]
  omega

/-- C3: per output pixel, Extract is the two-pass computation: the
horizontal pass is the unnormalized mirrored 5-tap sum of the spec, and
the vertical pass sums the intermediate values with the kernel mirrored on
the y axis, divides by 256, and stores `detail = source - blurred +
neutral` — rounded half away from zero and clamped to `[0, max]` before
truncation for the integer instantiations, stored unrounded and unclamped
for the float instantiation. -/
theorem C3_extract_two_pass (bits : ℕ) (S : ℤ → ℤ → ℤ) (Sf : ℤ → ℤ → ℚ)
    (width height step x y : ℤ) :
    conv_h Sf width step x y = hSpecSum Sf width step x y
    ∧ extract_pixel_int bits S width height step x y
      = extractSpec_int bits S width height step x y
    ∧ extract_pixel_float Sf width height step x y
      = extractSpec_float Sf width height step x y := by
  refine ⟨(hSpecSum_eq Sf width step x y).symm, ?_, ?_⟩
  · simp [extract_pixel_int, conv_v_and_extract_int, extractSpec_int,
      blurredSpec_eq, get_neutral, get_max]
  · simp [extract_pixel_float, conv_v_and_extract_float, extractSpec_float,
      blurredSpec_eq, get_neutral]

/-- C5: Extract of a constant plane is the all-neutral plane
(`2^(bits-1)` for the integer formats, 0 for float); in particular an
8-bit constant-128 plane at radius 1 maps to all 128, and Replace of two
all-128 planes is the all-128 plane. -/
theorem C5_flat_extract_neutral :
    (∀ bits : ℕ, 8 ≤ bits → bits ≤ 16 →
      ∀ (c : ℤ) (width height : ℤ) (radius : ℕ) (x y : ℤ),
        process_extract_plane_int bits (fun _ _ => c) width height radius x y
          = 2 ^ (bits - 1))
    ∧ (∀ (c : ℚ) (width height : ℤ) (radius : ℕ) (x y : ℤ),
        process_extract_plane_float (fun _ _ => c) width height radius x y = 0)
    ∧ (∀ x y : ℤ, process_extract_plane_int 8 (fun _ _ => 128) 4 4 1 x y = 128)
    ∧ (∀ x y : ℤ,
        ProcessReplacePlane_int 8 (fun _ _ => 128) (fun _ _ => 128) x y = 128) := by
  have hint : ∀ bits : ℕ, 1 ≤ bits →
      ∀ (c : ℤ) (width height : ℤ) (radius : ℕ) (x y : ℤ),
        process_extract_plane_int bits (fun _ _ => c) width height radius x y
          = 2 ^ (bits - 1) := by
    intro bits hb c width height radius x y
    have h := extract_pixel_int_const bits hb c width height (step_of radius) x y
    simpa [process_extract_plane_int, extract_pixel_int] using h
  refine ⟨fun bits hb _ => hint bits (by omega), ?_, ?_, ?_⟩
  · intro c width height radius x y
    simp only [process_extract_plane_float, extract_pixel_float,
      conv_v_and_extract_float, conv_v_sum, conv_h_const, kernelAt_tap_n2,
      kernelAt_tap_n1, kernelAt_tap_0, kernelAt_tap_1, kernelAt_tap_2,
      get_neutral]
    norm_num
    ring
  · intro x y
    have h := hint 8 (by norm_num) 128 4 4 1 x y
    norm_num at h
    exact h
  · intro x y
    norm_num [ProcessReplacePlane_int, get_neutral, get_max, clampQ,
      roundHalfAway]

/-- Witness for C5 at concrete formats, planes, radii and pixels. -/
theorem C5_flat_extract_neutral_witness :
    process_extract_plane_int 10 (fun _ _ => 77) 6 6 2 1 1 = 2 ^ (10 - 1)
    ∧ process_extract_plane_float (fun _ _ => (5 / 2 : ℚ)) 6 6 1 0 0 = 0
    ∧ process_extract_plane_int 8 (fun _ _ => 128) 4 4 1 2 3 = 128
    ∧ ProcessReplacePlane_int 8 (fun _ _ => 128) (fun _ _ => 128) 1 2 = 128 :=
  ⟨C5_flat_extract_neutral.1 10 (by norm_num) (by norm_num) 77 6 6 2 1 1,
   C5_flat_extract_neutral.2.1 (5 / 2) 6 6 1 0 0,
   C5_flat_extract_neutral.2.2.1 2 3,
   C5_flat_extract_neutral.2.2.2 1 2⟩

lemma conv_h_opt_eq (src : ℤ → ℤ → ℚ) (width height step x b : ℤ)
    (hs : 1 ≤ step) (hw : 2 * step ≤ width - 1)
    (hx1 : 0 ≤ x) (hx2 : x < width) (hb1 : 0 ≤ b) (hb2 : b < height) :
    conv_h_opt src width height step x b = some (conv_h src width step x b) := by
  have m0 := mirror_boundary_mem (x + (-2) * step) width (by omega) (by omega)
    (by omega)
  have m1 := mirror_boundary_mem (x + (-1) * step) width (by omega) (by omega)
    (by omega)
  have m2 := mirror_boundary_mem (x + 0 * step) width (by omega) (by omega)
    (by omega)
  have m3 := mirror_boundary_mem (x + 1 * step) width (by omega) (by omega)
    (by omega)
  have m4 := mirror_boundary_mem (x + 2 * step) width (by omega) (by omega)
    (by omega)
  simp only [conv_h_opt, readPlaneOpt]
  rw [if_pos ⟨m0.1, m0.2, hb1, hb2⟩, if_pos ⟨m1.1, m1.2, hb1, hb2⟩,
    if_pos ⟨m2.1, m2.2, hb1, hb2⟩, if_pos ⟨m3.1, m3.2, hb1, hb2⟩,
    if_pos ⟨m4.1, m4.2, hb1, hb2⟩]
  rfl

lemma extract_opt_float_eq (src : ℤ → ℤ → ℚ) (width height step x y : ℤ)
    (hs : 1 ≤ step) (hw : 2 * step ≤ width - 1) (hh : 2 * step ≤ height - 1)
    (hx1 : 0 ≤ x) (hx2 : x < width) (hy1 : 0 ≤ y) (hy2 : y < height) :
    extract_opt_float src width height step x y
      = some (extract_pixel_float src width height step x y) := by
  have my0 := mirror_boundary_mem (y + (-2) * step) height (by omega) (by omega)
    (by omega)
  have my1 := mirror_boundary_mem (y + (-1) * step) height (by omega) (by omega)
    (by omega)
  have my2 := mirror_boundary_mem (y + 0 * step) height (by omega) (by omega)
    (by omega)
  have my3 := mirror_boundary_mem (y + 1 * step) height (by omega) (by omega)
    (by omega)
  have my4 := mirror_boundary_mem (y + 2 * step) height (by omega) (by omega)
    (by omega)
  have h0 := conv_h_opt_eq src width height step x
    (mirror_boundary (y + (-2) * step) height) hs hw hx1 hx2 my0.1 my0.2
  have h1 := conv_h_opt_eq src width height step x
    (mirror_boundary (y + (-1) * step) height) hs hw hx1 hx2 my1.1 my1.2
  have h2 := conv_h_opt_eq src width height step x
    (mirror_boundary (y + 0 * step) height) hs hw hx1 hx2 my2.1 my2.2
  have h3 := conv_h_opt_eq src width height step x
    (mirror_boundary (y + 1 * step) height) hs hw hx1 hx2 my3.1 my3.2
  have h4 := conv_h_opt_eq src width height step x
    (mirror_boundary (y + 2 * step) height) hs hw hx1 hx2 my4.1 my4.2
  simp only [extract_opt_float, conv_v_sum_opt, temp_opt]
  rw [if_pos ⟨hx1, hx2, my0.1, my0.2⟩, h0, if_pos ⟨hx1, hx2, my1.1, my1.2⟩, h1,
    if_pos ⟨hx1, hx2, my2.1, my2.2⟩, h2, if_pos ⟨hx1, hx2, my3.1, my3.2⟩, h3,
    if_pos ⟨hx1, hx2, my4.1, my4.2⟩, h4]
  rfl

/-- C6 counterexample: the claim asserts the resolver returns a valid
in-range index for every coordinate and size, but a single 101 reflection
of `pos = -5` on an axis of size 3 yields index 5, which is out of range. -/
theorem C6_counterexample :
    mirror_boundary (-5) 3 = 5 ∧ ¬ mirror_boundary (-5) 3 < 3 := by decide

/-- C6 (amended): the resolver computes exactly the 101-reflection formula
(`-pos` for `pos < 0`, `2*size - 2 - pos` for `pos ≥ size`, `pos`
otherwise); the result is a valid in-range index provided a single
reflection suffices, i.e. when `-size < pos ≤ 2*size - 2`. -/
theorem C6_mirror_boundary_formula (pos size : ℤ) :
    (pos < 0 → mirror_boundary pos size = -pos)
    ∧ (0 ≤ pos → size ≤ pos → mirror_boundary pos size = 2 * size - 2 - pos)
    ∧ (0 ≤ pos → pos < size → mirror_boundary pos size = pos)
    ∧ (1 ≤ size → -size < pos → pos ≤ 2 * size - 2 →
        0 ≤ mirror_boundary pos size ∧ mirror_boundary pos size < size) := by
  unfold mirror_boundary
  refine ⟨?_, ?_, ?_, ?_⟩ <;> intros <;> split_ifs <;> omega

/-- Witness for the amended C6 theorem at concrete inputs. -/
theorem C6_mirror_boundary_formula_witness :
    mirror_boundary (-3) 7 = -(-3)
    ∧ mirror_boundary 8 7 = 2 * 7 - 2 - 8
    ∧ mirror_boundary 5 7 = 5
    ∧ (0 ≤ mirror_boundary (-3) 7 ∧ mirror_boundary (-3) 7 < 7) :=
  ⟨(C6_mirror_boundary_formula (-3) 7).1 (by decide),
   (C6_mirror_boundary_formula 8 7).2.1 (by decide) (by decide),
   (C6_mirror_boundary_formula 5 7).2.2.1 (by decide) (by decide),
   (C6_mirror_boundary_formula (-3) 7).2.2.2 (by decide) (by decide) (by decide)⟩

/-- C7 counterexample: for radius 1 (step 1) and size 5, the taps
`-2, -1, 0, 1, 2` around `x = 0` resolve to the index sequence
`(2, 1, 0, 1, 2)`, not `(1, 0, 0, 1, 2)` as claimed. -/
theorem C7_counterexample :
    ¬ [mirror_boundary (-2) 5, mirror_boundary (-1) 5, mirror_boundary 0 5,
       mirror_boundary 1 5, mirror_boundary 2 5] = [1, 0, 0, 1, 2] := by decide

/-- C7 (amended): for radius 1 and size 5 the taps around `x = 0` resolve
to `(2, 1, 0, 1, 2)` (and around `x = 4` to `(2, 3, 4, 3, 2)`), all in
range, so the first and last columns are computed only from in-range
mirrored samples: the bounds-checked horizontal pass never fails there. -/
theorem C7_boundary_taps :
    [mirror_boundary (-2) 5, mirror_boundary (-1) 5, mirror_boundary 0 5,
       mirror_boundary 1 5, mirror_boundary 2 5] = [2, 1, 0, 1, 2]
    ∧ [mirror_boundary 2 5, mirror_boundary 3 5, mirror_boundary 4 5,
       mirror_boundary 5 5, mirror_boundary 6 5] = [2, 3, 4, 3, 2]
    ∧ (∀ k : ℤ, -2 ≤ k → k ≤ 2 →
        (0 ≤ mirror_boundary (0 + k * 1) 5 ∧ mirror_boundary (0 + k * 1) 5 < 5)
        ∧ (0 ≤ mirror_boundary (4 + k * 1) 5 ∧ mirror_boundary (4 + k * 1) 5 < 5))
    ∧ (∀ (src : ℤ → ℤ → ℚ) (y : ℤ), 0 ≤ y → y < 5 →
        conv_h_opt src 5 5 1 0 y = some (conv_h src 5 1 0 y)
        ∧ conv_h_opt src 5 5 1 4 y = some (conv_h src 5 1 4 y)) := by
  refine ⟨by decide, by decide, ?_, ?_⟩
  · intro k hk1 hk2
    simp only [mirror_boundary]
    split_ifs <;> omega
  · intro src y hy1 hy2
    constructor <;>
      simp [conv_h_opt, conv_h, readPlaneOpt, mirror_boundary, hy1, hy2]

/-- Witness for the amended C7 theorem at concrete inputs. -/
theorem C7_boundary_taps_witness :
    (0 ≤ mirror_boundary (0 + (-2) * 1) 5 ∧ mirror_boundary (0 + (-2) * 1) 5 < 5)
    ∧ conv_h_opt (fun _ _ => 0) 5 5 1 0 3 = some (conv_h (fun _ _ => 0) 5 1 0 3) :=
  ⟨(C7_boundary_taps.2.2.1 (-2) (by decide) (by decide)).1,
   (C7_boundary_taps.2.2.2 (fun _ _ => 0) 3 (by decide) (by decide)).1⟩

/-- C9: with a dilation step large relative to the axis (step 4 from
radius 3 on a size-4 axis) a single reflection yields out-of-range indices
(`pos ≤ -size` and `pos ≥ 2*size - 1` both escape `[0, size)`); the
constructor accepts this configuration without comparing radius to the
plane dimensions, and the bounds-checked extract pipeline then aborts on
an out-of-range access (`none`), which the unchecked code has no guard
against. -/
theorem C9_unguarded_out_of_range :
    (mirror_boundary (0 + (-2) * 4) 4 = 8 ∧ ¬ mirror_boundary (0 + (-2) * 4) 4 < 4)
    ∧ (mirror_boundary (-4) 4 = 4 ∧ ¬ mirror_boundary (-4) 4 < 4)
    ∧ mirror_boundary 7 4 < 0
    ∧ ExtractCreate 3 ⟨⟨1, 0, 8, 1, 0, 0, 1⟩, 4, 4⟩ = Except.ok ()
    ∧ extract_opt_float (fun _ _ => 0) 4 4 (step_of 3) 0 0 = none := by
  refine ⟨by decide, by decide, by decide, rfl, rfl⟩

/-- C4: per pixel, `ProcessReplacePlane` computes
`value = base + detail - neutral` with neutral `2^(bits-1)` for the
integer instantiations (rounded half away from zero, clamped to
`[0, max]`) and neutral 0 for the float instantiation (raw sum, no
clamp). -/
theorem C4_replace_formula (bits : ℕ) (base detail : ℤ → ℤ → ℤ)
    (fbase fdetail : ℤ → ℤ → ℚ) (x y : ℤ) :
    ProcessReplacePlane_int bits base detail x y
      = replaceSpec_int bits (base x y) (detail x y)
    ∧ ProcessReplacePlane_float fbase fdetail x y
      = replaceSpec_float (fbase x y) (fdetail x y) := by
  constructor
  · simp [ProcessReplacePlane_int, replaceSpec_int, get_neutral, get_max]
  · simp [ProcessReplacePlane_float, replaceSpec_float, get_neutral]

/-- C1: for every float plane `S` and radius ≥ 1, the composition
`Replace(MakeLowBand(S), Extract(S, r))` with
`MakeLowBand(S) = S - Extract(S, r)` reproduces `S` exactly, the float
path applying no rounding or clamping (float arithmetic modelled exactly
over `ℚ`). -/
theorem C1_float_inverse (S : ℤ → ℤ → ℚ) (width height : ℤ) (radius : ℕ)
    (_hr : 1 ≤ radius) (x y : ℤ) :
    ProcessReplacePlane_float (makeLowBand_float S width height radius)
      (fun a b => process_extract_plane_float S width height radius a b) x y
    = S x y := by
  simp [ProcessReplacePlane_float, makeLowBand_float,
    process_extract_plane_float, extract_pixel_float, conv_v_and_extract_float,
    get_neutral]

/-- C2 counterexample: for the 8-bit constant-128 plane at radius 1, the
literal composition `Replace(S - Extract(S, 1), Extract(S, 1))` returns 0
at every pixel (shown at (0,0)), not 128: without the neutral offset the
low band is off by `neutral`, so the claim as stated fails on integer
formats. -/
theorem C2_int_inverse_counterexample :
    ProcessReplacePlane_int 8
        (makeLowBand_int 8 (fun _ _ => 128) 4 4 1)
        (fun a b => process_extract_plane_int 8 (fun _ _ => 128) 4 4 1 a b) 0 0
      = 0
    ∧ (fun _ _ => (128 : ℤ)) 0 0 = 128 ∧ (0 : ℤ) ≠ 128 := by
  refine ⟨?_, rfl, by decide⟩
  norm_num [ProcessReplacePlane_int, makeLowBand_int, process_extract_plane_int,
    extract_pixel_int, conv_v_and_extract_int, conv_v_sum, conv_h,
    mirror_boundary, kernelAt_zero, kernelAt_one, kernelAt_two, kernelAt_three,
    kernelAt_four, step_of, get_neutral, get_max, clampQ, roundHalfAway]

/-- C2 (amended): for every 8-to-16-bit plane `S` and radius ≥ 1, with the
low band taken as `S - Extract(S, r) + neutral` (the neutral-offset
difference a host MakeDiff produces), the low band is always within
`[0, max]` (so it is representable without clamping) and
`Replace(LowBand, Extract(S, r))` reproduces `S` bit-exactly: the offset
arithmetic around the shared blurred value is exactly inverse and free of
rounding on integer inputs. -/
theorem C2_int_inverse (bits : ℕ) (hb1 : 8 ≤ bits) (hb2 : bits ≤ 16)
    (S : ℤ → ℤ → ℤ) (hS : ∀ a b, 0 ≤ S a b ∧ S a b ≤ 2 ^ bits - 1)
    (width height : ℤ) (radius : ℕ) (_hr : 1 ≤ radius) (x y : ℤ) :
    (0 ≤ makeLowBandNeutral_int bits S width height radius x y
      ∧ makeLowBandNeutral_int bits S width height radius x y ≤ 2 ^ bits - 1)
    ∧ ProcessReplacePlane_int bits
        (makeLowBandNeutral_int bits S width height radius)
        (fun a b => process_extract_plane_int bits S width height radius a b) x y
      = S x y := by
  have hpow : (2 : ℤ) ^ bits = 2 ^ (bits - 1) * 2 := by
    rw [← pow_succ]
    congr 1
    omega
  have hNpos : (0 : ℤ) < 2 ^ (bits - 1) := pow_pos (by norm_num) _
  have hmQ : (0 : ℤ) ≤ 2 ^ bits - 1 := by omega
  have hsrc : ∀ a b, 0 ≤ ((S a b : ℤ) : ℚ)
      ∧ ((S a b : ℤ) : ℚ) ≤ ((2 ^ bits - 1 : ℤ) : ℚ) := by
    intro a b
    constructor
    · exact_mod_cast (hS a b).1
    · exact_mod_cast (hS a b).2
  have htemp : ∀ a b,
      0 ≤ conv_h (fun a b => ((S a b : ℤ) : ℚ)) width (step_of radius) a b
      ∧ conv_h (fun a b => ((S a b : ℤ) : ℚ)) width (step_of radius) a b
          ≤ 16 * ((2 ^ bits - 1 : ℤ) : ℚ) :=
    fun a b => conv_h_bounds hsrc width (step_of radius) a b
  have hV := conv_v_sum_bounds htemp height (step_of radius) x y
  set sum := conv_v_sum (conv_h (fun a b => ((S a b : ℤ) : ℚ)) width
    (step_of radius)) height (step_of radius) x y with hsumdef
  have hVl : (0 : ℚ) ≤ sum := hV.1
  have hVu : sum ≤ 16 * (16 * ((2 ^ bits - 1 : ℤ) : ℚ)) := hV.2
  have hDdef : process_extract_plane_int bits S width height radius x y
      = max 0 (min (roundHalfAway
          ((S x y : ℚ) - sum / 256 + ((2 ^ (bits - 1) : ℤ) : ℚ)))
          (2 ^ bits - 1)) := by
    simp only [process_extract_plane_int, extract_pixel_int,
      conv_v_and_extract_int, get_neutral_int_cast, get_max_int_cast]
    rw [← hsumdef, floor_clampQ _ _ hmQ]
  set r := roundHalfAway ((S x y : ℚ) - sum / 256 + ((2 ^ (bits - 1) : ℤ) : ℚ))
    with hrdef
  have hr1 : S x y - (2 ^ bits - 1) + 2 ^ (bits - 1) ≤ r := by
    rw [hrdef]
    apply le_roundHalfAway
    push_cast at hVu ⊢
    linarith
  have hr2 : r ≤ S x y + 2 ^ (bits - 1) := by
    rw [hrdef]
    apply roundHalfAway_le
    push_cast
    linarith
  have hSxy := hS x y
  constructor
  · simp only [makeLowBandNeutral_int]
    rw [hDdef]
    omega
  · simp only [ProcessReplacePlane_int, makeLowBandNeutral_int,
      get_neutral_int_cast, get_max_int_cast]
    rw [hDdef]
    set D := max 0 (min r (2 ^ bits - 1)) with hDset
    have hval : ((S x y - D + 2 ^ (bits - 1) : ℤ) : ℚ) + ((D : ℤ) : ℚ)
        - ((2 ^ (bits - 1) : ℤ) : ℚ) = ((S x y : ℤ) : ℚ) := by
      push_cast
      ring
    rw [hval, roundHalfAway_intCast, floor_clampQ _ _ hmQ]
    omega

/-- Witness for the amended C2 theorem at a concrete plane and pixel. -/
theorem C2_int_inverse_witness :
    (0 ≤ makeLowBandNeutral_int 8 (fun a _ => if a = 0 then 200 else 30) 3 3 1 0 0
      ∧ makeLowBandNeutral_int 8 (fun a _ => if a = 0 then 200 else 30) 3 3 1 0 0
          ≤ 2 ^ 8 - 1)
    ∧ ProcessReplacePlane_int 8
        (makeLowBandNeutral_int 8 (fun a _ => if a = 0 then 200 else 30) 3 3 1)
        (fun a b => process_extract_plane_int 8
          (fun a _ => if a = 0 then 200 else 30) 3 3 1 a b) 0 0
      = (fun a _ => if a = 0 then (200 : ℤ) else 30) 0 0 :=
  C2_int_inverse 8 (by norm_num) (by norm_num)
    (fun a _ => if a = 0 then 200 else 30)
    (fun a b => by dsimp only; split <;> norm_num)
    3 3 1 (by norm_num) 0 0

/-- Witness for C1 at a concrete plane, radius and pixel. -/
theorem C1_float_inverse_witness :
    1 ≤ 1
    ∧ ProcessReplacePlane_float
        (makeLowBand_float (fun a b => (a : ℚ) + 2 * (b : ℚ)) 5 5 1)
        (fun a b =>
          process_extract_plane_float (fun a b => (a : ℚ) + 2 * (b : ℚ)) 5 5 1 a b)
        2 3
      = (2 : ℚ) + 2 * (3 : ℚ) :=
  ⟨le_refl 1,
   C1_float_inverse (fun a b => (a : ℚ) + 2 * (b : ℚ)) 5 5 1 (le_refl 1) 2 3⟩

/-- C10: whenever `2*step ≤ size - 1` on both axes, one application of
`mirror_boundary` keeps every tap of every in-range output pixel inside
`[0, size)`, and the bounds-checked extract pipeline never takes its
out-of-range (`none`) branch — it agrees with the unchecked code. -/
theorem C10_single_reflection_safe (width height step x y : ℤ) (hs : 1 ≤ step)
    (hw : 2 * step ≤ width - 1) (hh : 2 * step ≤ height - 1)
    (hx1 : 0 ≤ x) (hx2 : x < width) (hy1 : 0 ≤ y) (hy2 : y < height) :
    (∀ k : ℤ, -2 ≤ k → k ≤ 2 →
      (0 ≤ mirror_boundary (x + k * step) width
        ∧ mirror_boundary (x + k * step) width < width)
      ∧ (0 ≤ mirror_boundary (y + k * step) height
        ∧ mirror_boundary (y + k * step) height < height))
    ∧ ∀ src : ℤ → ℤ → ℚ,
        extract_opt_float src width height step x y
          = some (extract_pixel_float src width height step x y) := by
  constructor
  · intro k hk1 hk2
    have hk1s : 0 ≤ (k + 2) * step := mul_nonneg (by omega) (by omega)
    have hk2s : 0 ≤ (2 - k) * step := mul_nonneg (by omega) (by omega)
    have e1 : (k + 2) * step = k * step + 2 * step := by ring
    have e2 : (2 - k) * step = 2 * step - k * step := by ring
    rw [e1] at hk1s
    rw [e2] at hk2s
    constructor
    · exact mirror_boundary_mem (x + k * step) width (by omega) (by omega)
        (by omega)
    · exact mirror_boundary_mem (y + k * step) height (by omega) (by omega)
        (by omega)
  · intro src
    exact extract_opt_float_eq src width height step x y hs hw hh hx1 hx2 hy1 hy2

/-- Witness for C10 at a concrete plane size, step and pixel. -/
theorem C10_single_reflection_safe_witness :
    ((0 ≤ mirror_boundary (0 + -2 * 1) 5 ∧ mirror_boundary (0 + -2 * 1) 5 < 5)
      ∧ (0 ≤ mirror_boundary (0 + -2 * 1) 5 ∧ mirror_boundary (0 + -2 * 1) 5 < 5))
    ∧ extract_opt_float (fun _ _ => 1) 5 5 1 0 0
        = some (extract_pixel_float (fun _ _ => 1) 5 5 1 0 0) :=
  ⟨(C10_single_reflection_safe 5 5 1 0 0 (by norm_num) (by norm_num) (by norm_num)
      (by norm_num) (by norm_num) (by norm_num) (by norm_num)).1 (-2)
      (by norm_num) (by norm_num),
   (C10_single_reflection_safe 5 5 1 0 0 (by norm_num) (by norm_num) (by norm_num)
      (by norm_num) (by norm_num) (by norm_num) (by norm_num)).2 (fun _ _ => 1)⟩

/-- C8: the Extract constructor rejects radius 0, a non-constant clip and
a format outside the accepted set before any pixel work, and the Replace
constructor rejects a format mismatch — but `ReplaceCreate` compares only
the two `VSVideoFormat` records (which carry no dimensions), so two clips
of identical format and different dimensions are ACCEPTED, contradicting
the claim and the code's own error message ("must have the same format
and dimensions"). -/
theorem C8_dimension_mismatch_accepted :
    ExtractCreate 0 ⟨⟨1, 0, 8, 1, 0, 0, 1⟩, 4, 4⟩
      = Except.error "ExtractFrequency: radius must be >= 1"
    ∧ ExtractCreate 1 ⟨⟨1, 0, 8, 1, 0, 0, 1⟩, 0, 0⟩
      = Except.error "ExtractFrequency: only clips with constant format are accepted"
    ∧ ExtractCreate 1 ⟨⟨1, 0, 32, 4, 0, 0, 1⟩, 4, 4⟩
      = Except.error "ExtractFrequency: only 8-16 bit integer or 32 bit float input are accepted"
    ∧ ReplaceCreate ⟨⟨1, 0, 8, 1, 0, 0, 1⟩, 4, 4⟩ ⟨⟨1, 0, 16, 2, 0, 0, 1⟩, 4, 4⟩
      = Except.error "ReplaceFrequency: base and detail must have the same format and dimensions"
    ∧ ReplaceCreate ⟨⟨1, 0, 8, 1, 0, 0, 1⟩, 4, 4⟩ ⟨⟨1, 0, 8, 1, 0, 0, 1⟩, 2, 2⟩
      = Except.ok ()
    ∧ (⟨⟨1, 0, 8, 1, 0, 0, 1⟩, 4, 4⟩ : VSVideoInfo).format
        = (⟨⟨1, 0, 8, 1, 0, 0, 1⟩, 2, 2⟩ : VSVideoInfo).format
    ∧ (⟨⟨1, 0, 8, 1, 0, 0, 1⟩, 4, 4⟩ : VSVideoInfo).width
        ≠ (⟨⟨1, 0, 8, 1, 0, 0, 1⟩, 2, 2⟩ : VSVideoInfo).width :=
  ⟨rfl, rfl, rfl, rfl, rfl, rfl, by decide⟩

end ATWT
